import Mathlib

/-
Verification of the extension-installation and download-cache logic of the
dlvsix repository (files `dlvsix.py` and `resources/install-extensions.py`).

The Python code is shallowly embedded: pure computations become Lean
functions, the in-memory registry state of the `Extensions` class becomes an
explicit state record, Python `dict`s become ordered association lists with
dict update/lookup semantics, Python `set`s of strings become lists with
set-insertion semantics, and the filesystem / network effects that feed the
pure logic (zip archive contents, parsed manifests, HTTP transfer outcomes)
become explicit input values.  Python exceptions that the code does not catch
are modelled with `Except`.
-/

namespace Dlvsix

/-- Embedding of Python `str.lower()` (character-wise lowercasing, as used on
the ASCII extension identifiers of this program). -/
def lower (s : String) : String := ⟨s.data.map Char.toLower⟩

/-- Embedding of Python `dict.get(k, dflt)` on a string-keyed dict represented
as an ordered association list with unique keys. -/
def dictGet {α : Type} (m : List (String × α)) (k : String) (dflt : α) : α :=
  match m.find? (fun p => p.1 == k) with
  | some p => p.2
  | none => dflt

/-- Embedding of Python `d[k] = v` on a dict represented as an ordered
association list: an existing key is updated in place, a new key is appended
(insertion order is preserved, as in Python dicts). -/
def dictSet {α : Type} (m : List (String × α)) (k : String) (v : α) : List (String × α) :=
  if m.any (fun p => p.1 == k) then
    m.map (fun p => if p.1 == k then (k, v) else p)
  else
    m ++ [(k, v)]

/-- Embedding of Python `set.add` on a set of strings represented as a
duplicate-free list in insertion order. -/
def setAdd (s : List String) (x : String) : List String :=
  if s.contains x then s else s ++ [x]

/-! Embedding of `resources/install-extensions.py`. -/

/-- Manifest data parsed by `ExtManifest.from_etree` (install-extensions.py
lines 62-87): identity, version, publisher, optional target platform and the
set of extension-kind capability tags. -/
structure ExtManifest where
  id : String
  version : String
  publisher : String
  platform : Option String
  kinds : List String
  deriving Repr, DecidableEq

/-- One record of the `extensions.json` registry sequence, as produced by
`Extensions.add_extension` (install-extensions.py lines 214-242).  The
`location` URI of the Python dict is derived from `relativeLocation` (an
absolute-path rendering of it), so it is not duplicated here; the constant
metadata fields (`pinned = True`, `source = "vsix"`, ...) are likewise
fixed by `add_extension` and carry no per-entry information beyond the
timestamp. -/
structure ExtensionData where
  id : String
  version : String
  relativeLocation : String
  installedTimestamp : Nat
  deriving Repr, DecidableEq

/-- In-memory state of the `Extensions` context manager (install-extensions.py
lines 112-124): the `extensions.json` sequence, the `.obsolete` dict, and the
two dirty flags that gate the write-back on exit. -/
structure ExtensionsState where
  extensions : List ExtensionData
  obsolete : List (String × Bool)
  extensions_dirty : Bool
  obsolete_dirty : Bool
  deriving Repr, DecidableEq

/-- State loaded when neither `extensions.json` nor `.obsolete` exists
(install-extensions.py lines 112-124: both suppress `FileNotFoundError`). -/
def emptyState : ExtensionsState :=
  { extensions := [], obsolete := [], extensions_dirty := false, obsolete_dirty := false }

/-- Ambient configuration of an install session: `Extensions.is_server`
(install-extensions.py lines 95-97) and the module-level `current_platform`
(line 53). -/
structure Config where
  is_server : Bool
  current_platform : String
  deriving Repr, DecidableEq

/-- Embedding of `Extensions.is_obsolete` (install-extensions.py lines
143-146): look up `"{id}-{version}".lower()` in the `.obsolete` dict with
default `False`. -/
def is_obsolete (st : ExtensionsState) (ext : ExtensionData) : Bool :=
  dictGet st.obsolete (lower (ext.id ++ "-" ++ ext.version)) false

/-- Embedding of `Extensions.get_extension` (install-extensions.py lines
134-141): scan the registry sequence in order and return the first entry whose
lowered identifier equals `ext_id` and which is either not obsolete or has
exactly the version being looked up. -/
def get_extension (st : ExtensionsState) (ext_id version : String) : Option ExtensionData :=
  st.extensions.find? (fun ext =>
    lower ext.id == ext_id && (!is_obsolete st ext || ext.version == version))

/-- Embedding of `Extensions.add_extension` (install-extensions.py lines
214-242): append a registry entry with the lowered `publisher.name` identifier
and mark the registry dirty. -/
def add_extension (st : ExtensionsState) (publisher name version location : String)
    (timestamp : Nat) : ExtensionsState :=
  { st with
    extensions := st.extensions ++
      [{ id := lower (publisher ++ "." ++ name)
         version := version
         relativeLocation := location
         installedTimestamp := timestamp }]
    extensions_dirty := true }

/-- Embedding of `Extensions.add_obsolete` (install-extensions.py lines
244-247): set `"{id}-{version}".lower()` to `True` in the `.obsolete` dict and
mark it dirty. -/
def add_obsolete (st : ExtensionsState) (ext : ExtensionData) : ExtensionsState :=
  { st with
    obsolete := dictSet st.obsolete (lower (ext.id ++ "-" ++ ext.version)) true
    obsolete_dirty := true }

/-- Outcome of one `Extensions.install_extension` call, recording which branch
of the function was taken; `installed location` is the only branch that calls
`extract_vsix` (i.e. that extracts into the extensions directory). -/
inductive InstallResult
  | invalidManifest
  | serverSkip
  | platformSkip
  | alreadyInstalled
  | installed (location : String)
  deriving Repr, DecidableEq

/-- Embedding of the state-transition part of `Extensions.install_extension`
(install-extensions.py lines 172-212), applied to an already-parsed manifest
(`none` models `ExtManifest.from_etree` returning `None`).  The branch order
follows the source: manifest validity, the server/workspace-kind gate, the
target-platform gate, the already-installed lookup, then commit plus
supersession. -/
def install_extension (cfg : Config) (st : ExtensionsState) (mft? : Option ExtManifest)
    (timestamp : Nat) : ExtensionsState × InstallResult :=
  match mft? with
  | none => (st, .invalidManifest)
  | some mft =>
    if cfg.is_server && !mft.kinds.contains "workspace" then
      (st, .serverSkip)
    else if mft.platform.isNone || mft.platform == some cfg.current_platform then
      match get_extension st (lower (mft.publisher ++ "." ++ mft.id)) mft.version with
      | some installed =>
        if installed.version == mft.version then
          (st, .alreadyInstalled)
        else
          (add_obsolete
            (add_extension st mft.publisher mft.id mft.version
              (lower (mft.publisher ++ "." ++ mft.id ++ "-" ++ mft.version)) timestamp)
            installed,
           .installed (lower (mft.publisher ++ "." ++ mft.id ++ "-" ++ mft.version)))
      | none =>
        (add_extension st mft.publisher mft.id mft.version
          (lower (mft.publisher ++ "." ++ mft.id ++ "-" ++ mft.version)) timestamp,
         .installed (lower (mft.publisher ++ "." ++ mft.id ++ "-" ++ mft.version)))
    else
      (st, .platformSkip)

/-- Sequence of `install_extension` calls (each with its manifest and
wall-clock timestamp) applied to a starting state, as a session of the
`Extensions` context manager performs them. -/
def install_many (cfg : Config) (st : ExtensionsState)
    (inputs : List (Option ExtManifest × Nat)) : ExtensionsState :=
  inputs.foldl (fun s i => (install_extension cfg s i.1 i.2).1) st

/-- Content of one `.vsix` file as `install_extension` observes it:
`badZip` models an archive `zipfile.ZipFile` cannot open (raises
`BadZipFile`), `missingManifestEntry` models an archive without the
`extension.vsixmanifest` entry (`z.open` raises `KeyError`), and
`withManifest m` models a readable archive whose manifest parses to `m`
(`none` when the Identity node is absent). -/
inductive VsixFile
  | badZip
  | missingManifestEntry
  | withManifest (mft? : Option ExtManifest)
  deriving Repr, DecidableEq

/-- Python exceptions that can escape `Extensions.install_extension`
(install-extensions.py lines 183-185): neither is caught anywhere in the
script. -/
inductive PyExc
  | badZipFile
  | keyError
  deriving Repr, DecidableEq

/-- Embedding of one `install_extension` call on a `.vsix` file, including the
uncaught exceptions raised while opening the archive and reading its manifest
entry (install-extensions.py lines 183-189). -/
def install_extension_file (cfg : Config) (st : ExtensionsState) (f : VsixFile)
    (timestamp : Nat) : Except PyExc (ExtensionsState × InstallResult) :=
  match f with
  | .badZip => .error .badZipFile
  | .missingManifestEntry => .error .keyError
  | .withManifest mft? => .ok (install_extension cfg st mft? timestamp)

/-- Embedding of the batch loop of `install_extensions` (install-extensions.py
lines 288-294): the `.vsix` files of the cache directory are installed one
after the other with no exception handling, so the first exception aborts the
remaining files. -/
def install_extensions (cfg : Config) (st : ExtensionsState)
    (files : List (VsixFile × Nat)) : Except PyExc ExtensionsState :=
  match files with
  | [] => .ok st
  | (f, ts) :: rest =>
    match install_extension_file cfg st f ts with
    | .error e => .error e
    | .ok (st', _) => install_extensions cfg st' rest

/-- Modelled from the spec: the lookup of section 4.6 step 3 as the claim
states it, where among the matching entries the LAST one encountered in load
order wins (an entry still being skipped when it is obsolete unless its
version equals the version being installed).  Used only to compare against
the source's `get_extension`. -/
def get_extension_spec_last_wins (st : ExtensionsState) (ext_id version : String) :
    Option ExtensionData :=
  st.extensions.reverse.find? (fun ext =>
    lower ext.id == ext_id && (!is_obsolete st ext || ext.version == version))

/-- Entries of the registry sequence that the host editor would load for
identifier class `I`: present in the sequence, lowered identifier equal to
`I`, and not marked obsolete. -/
def isActiveFor (st : ExtensionsState) (I : String) (e : ExtensionData) : Bool :=
  lower e.id == I && !is_obsolete st e

/-- List of non-obsolete registry entries for identifier class `I`. -/
def activeEntries (st : ExtensionsState) (I : String) : List ExtensionData :=
  st.extensions.filter (isActiveFor st I)

/-- Supersession invariant of the registry state: at most one non-obsolete
entry per identifier. -/
def supersessionInv (st : ExtensionsState) : Prop :=
  ∀ I, (activeEntries st I).length ≤ 1

/-- Marker for whether an `install_extension` call reached the branch that
extracts the package into the extensions directory. -/
def wasExtracted : InstallResult → Bool
  | .installed _ => true
  | _ => false

/-! Embedding of the marketplace cache and download logic of `dlvsix.py`. -/

/-- Path of the platform-independent cached artifact,
`<extensions_dir>/<name>/<vers>/<name>-<vers>.vsix` (dlvsix.py lines
803-805). -/
def universal_vsix_path (dir name vers : String) : String :=
  dir ++ "/" ++ name ++ "/" ++ vers ++ "/" ++ name ++ "-" ++ vers ++ ".vsix"

/-- Path of the platform-suffixed cached artifact,
`<extensions_dir>/<name>/<vers>/<name>-<vers>@<platform>.vsix` (dlvsix.py
line 811). -/
def platform_vsix_path (dir name vers platform : String) : String :=
  dir ++ "/" ++ name ++ "/" ++ vers ++ "/" ++ name ++ "-" ++ vers ++ "@" ++ platform ++ ".vsix"

/-- Loop of `Marketplace.is_extension_cached` over the requested platforms
(dlvsix.py lines 810-816): fail as soon as one platform-suffixed file is
missing, recording each file that exists in the touched-file log. -/
def is_extension_cached_loop (dir name vers : String) (fs : List String) :
    List String → List String → Bool × List String
  | [], flog => (true, flog)
  | p :: ps, flog =>
    let file := platform_vsix_path dir name vers p
    if fs.contains file then
      is_extension_cached_loop dir name vers fs ps (setAdd flog file)
    else
      (false, flog)

/-- Embedding of `Marketplace.is_extension_cached` (dlvsix.py lines 797-816).
The filesystem is the list `fs` of existing paths and `flog` is the global
`file_log` touched-file set; the function returns the cache-hit boolean and
the updated touched-file set. -/
def is_extension_cached (dir : String) (fs flog : List String) (name vers : String)
    (platforms : List String) : Bool × List String :=
  let file := universal_vsix_path dir name vers
  if fs.contains file then
    (true, setAdd flog file)
  else
    is_extension_cached_loop dir name vers fs platforms flog

/-- One entry of a marketplace version's `files` list (dlvsix.py lines
307-309). -/
structure RemoteExtensionFile where
  assetType : String
  source : String
  deriving Repr, DecidableEq

/-- One entry of a marketplace extension's `versions` list (dlvsix.py lines
312-315); `targetPlatform` is absent for universal packages. -/
structure RemoteExtensionVersion where
  version : String
  files : List RemoteExtensionFile
  targetPlatform : Option String
  deriving Repr, DecidableEq

/-- Marketplace answer for one extension (dlvsix.py lines 318-319). -/
structure RemoteExtension where
  versions : List RemoteExtensionVersion
  deriving Repr, DecidableEq

/-- Building of the `sources` dict in `Marketplace.get_download_extension_urls`
(dlvsix.py lines 780-790): for every version entry whose version matches, the
first file whose asset type marks the installable package is recorded under
the entry's target platform, defaulting to `"universal"`. -/
def build_sources (versions : List RemoteExtensionVersion) (target : String) :
    List (String × String) :=
  versions.foldl
    (fun sources v =>
      if v.version == target then
        match v.files.find? (fun f =>
            f.assetType == "Microsoft.VisualStudio.Services.VSIXPackage") with
        | some f => dictSet sources (v.targetPlatform.getD "universal") f.source
        | none => sources
      else sources)
    []

/-- Embedding of `dict.pop` of a key on the association-list representation
(keys are unique, so removing every pair with the key removes the one
entry). -/
def dictPop {α : Type} (m : List (String × α)) (k : String) : List (String × α) :=
  m.filter (fun p => p.1 != k)

/-- Embedding of `Marketplace.get_download_extension_urls` (dlvsix.py lines
771-795) applied to the marketplace response `data?` (`none` when the
marketplace has no record of the extension) and the installed extension's
version: build the per-platform source dict, then drop the universal variant
when more than one variant exists and a universal one is among them. -/
def get_download_extension_urls (data? : Option RemoteExtension)
    (extension_version : String) : List (String × String) :=
  match data? with
  | none => []
  | some data =>
    let sources := build_sources data.versions extension_version
    if sources.length > 1 && sources.any (fun p => p.1 == "universal") then
      dictPop sources "universal"
    else
      sources

/-- State touched by `download_file` (dlvsix.py lines 882-899): the set of
files existing on disk, the global `file_log` touched-file set, and the log
lines emitted so far. -/
structure DownloadState where
  files : List String
  file_log : List String
  logs : List String
  deriving Repr, DecidableEq

/-- Outcome of the `urllib.request.urlretrieve` call inside `download_file`:
either the transfer succeeds and the destination file is written, or an
`HTTPError` with the given status is raised before the destination file is
created. -/
inductive TransferResult
  | success
  | httpError (status : Nat)
  deriving Repr, DecidableEq

/-- Embedding of `verify_sha256_hash` (dlvsix.py lines 858-867):
`actual_hash` stands for the SHA-256 digest of the file's bytes on disk; a
mismatch logs an error, unlinks the file and returns `false`. -/
def verify_sha256_hash (st : DownloadState) (filename sha256hash actual_hash : String) :
    DownloadState × Bool :=
  if sha256hash != actual_hash then
    ({ st with
       files := st.files.filter (fun f => f != filename)
       logs := st.logs ++ ["SHA256 Verify failed for " ++ filename ++ "!"] },
     false)
  else
    (st, true)

/-- Embedding of `download_file` (dlvsix.py lines 882-899).  On an
`HTTPError` the failure is logged and nothing else happens; on success the
destination file exists, and it is recorded in `file_log` when no hash was
requested or the hash verifies (a failed verification having deleted the
file). -/
def download_file (st : DownloadState) (url dest : String) (sha256hash : Option String)
    (result : TransferResult) (actual_hash : String) : DownloadState :=
  match result with
  | .httpError status =>
    { st with
      logs := st.logs ++
        ["Download failed with status " ++ toString status ++ " for url: " ++ url] }
  | .success =>
    let st := { st with files := setAdd st.files dest }
    match sha256hash with
    | none =>
      { st with
        logs := st.logs ++ ["Downloaded " ++ dest]
        file_log := setAdd st.file_log dest }
    | some h =>
      let r := verify_sha256_hash st dest h actual_hash
      if r.2 then
        { r.1 with
          logs := r.1.logs ++ ["Downloaded " ++ dest]
          file_log := setAdd r.1.file_log dest }
      else
        r.1

/-! Helper lemmas about the embedding. -/

theorem char_ofNat_toNat_small (n : Nat) (h : n < 0xD800) : (Char.ofNat n).toNat = n := by
  have hv : n.isValidChar := Or.inl h
  simp only [Char.ofNat, hv, dif_pos]
  rfl

theorem char_toLower_def (c : Char) :
    c.toLower = if c.toNat ≥ 65 ∧ c.toNat ≤ 90 then Char.ofNat (c.toNat + 32) else c := rfl

theorem char_toLower_toNat_not_upper (c : Char) :
    ¬(c.toLower.toNat ≥ 65 ∧ c.toLower.toNat ≤ 90) := by
  rw [char_toLower_def]
  by_cases h : c.toNat ≥ 65 ∧ c.toNat ≤ 90
  · rw [if_pos h]
    rw [char_ofNat_toNat_small _ (by omega)]
    omega
  · rw [if_neg h]
    omega

theorem char_toLower_toLower (c : Char) : c.toLower.toLower = c.toLower := by
  have h := char_toLower_toNat_not_upper c
  conv_lhs => rw [char_toLower_def]
  rw [if_neg h]

/-- Lowercasing is idempotent, so identifiers stored already lowered are fixed
points of `lower`. -/
theorem lower_lower (s : String) : lower (lower s) = lower s := by
  simp [lower, List.map_map, Function.comp_def, char_toLower_toLower]

theorem lower_lower_beq (s : String) : (lower (lower s) == lower s) = true := by
  rw [lower_lower]
  exact beq_self_eq_true _

theorem find?_map_set_self {α : Type} (m : List (String × α)) (k : String) (v : α)
    (h : m.any (fun p => p.1 == k) = true) :
    (m.map (fun p => if p.1 == k then (k, v) else p)).find? (fun p => p.1 == k) =
      some (k, v) := by
  induction m with
  | nil => simp at h
  | cons p m ih =>
    cases hpk : p.1 == k with
    | true =>
      simp only [List.map_cons, List.find?_cons, hpk, if_true, beq_self_eq_true]
    | false =>
      have h' : m.any (fun p => p.1 == k) = true := by
        simpa [List.any_cons, hpk] using h
      simp only [List.map_cons, List.find?_cons, hpk, if_false, Bool.false_eq_true]
      exact ih h'

theorem find?_map_set_ne {α : Type} (m : List (String × α)) (k k' : String) (v : α)
    (hkk : (k == k') = false) :
    (m.map (fun p => if p.1 == k then (k, v) else p)).find? (fun p => p.1 == k') =
      m.find? (fun p => p.1 == k') := by
  induction m with
  | nil => rfl
  | cons p m ih =>
    cases hpk : p.1 == k with
    | true =>
      have hp' : p.1 = k := eq_of_beq hpk
      have hpk' : (p.1 == k') = false := by rw [hp']; exact hkk
      simp only [List.map_cons, List.find?_cons, hpk, if_true, hkk, hpk']
      exact ih
    | false =>
      simp only [List.map_cons, List.find?_cons, hpk, if_false, Bool.false_eq_true]
      cases hq : p.1 == k' with
      | true => rfl
      | false => exact ih

theorem dictGet_dictSet_self {α : Type} (m : List (String × α)) (k : String) (v : α) (d : α) :
    dictGet (dictSet m k v) k d = v := by
  unfold dictGet dictSet
  by_cases h : m.any (fun p => p.1 == k) = true
  · rw [if_pos h, find?_map_set_self m k v h]
  · rw [if_neg h, List.find?_append]
    have hn : m.find? (fun p => p.1 == k) = none := by
      rw [List.find?_eq_none]
      intro x hx hk
      exact h (List.any_eq_true.mpr ⟨x, hx, hk⟩)
    simp [hn, List.find?_cons]

theorem dictGet_dictSet_ne {α : Type} (m : List (String × α)) (k k' : String) (v : α) (d : α)
    (h : k' ≠ k) :
    dictGet (dictSet m k v) k' d = dictGet m k' d := by
  have hkk : (k == k') = false := beq_eq_false_iff_ne.mpr (Ne.symm h)
  unfold dictGet dictSet
  by_cases hany : m.any (fun p => p.1 == k) = true
  · rw [if_pos hany, find?_map_set_ne m k k' v hkk]
  · rw [if_neg hany, List.find?_append]
    cases hf : m.find? (fun p => p.1 == k') with
    | some p => rfl
    | none => simp [List.find?_cons, hkk]

theorem eq_of_mem_of_length_le_one {α : Type} {l : List α} (h : l.length ≤ 1) {a b : α}
    (ha : a ∈ l) (hb : b ∈ l) : a = b := by
  match l with
  | [] => cases ha
  | [x] =>
    rw [List.mem_singleton] at ha hb
    rw [ha, hb]
  | x :: y :: rest => simp at h

/-- Obsoleteness only depends on the obsolete dict, which `add_extension` does
not touch. -/
theorem is_obsolete_add_extension (st : ExtensionsState) (pub name vers loc : String)
    (ts : Nat) (e : ExtensionData) :
    is_obsolete (add_extension st pub name vers loc ts) e = is_obsolete st e := rfl

/-- After `add_obsolete st inst`, an entry is obsolete exactly when its
obsolete-log key matches `inst`'s or it already was obsolete. -/
theorem is_obsolete_add_obsolete (st : ExtensionsState) (inst e : ExtensionData) :
    is_obsolete (add_obsolete st inst) e =
      ((lower (e.id ++ "-" ++ e.version) == lower (inst.id ++ "-" ++ inst.version)) ||
        is_obsolete st e) := by
  unfold is_obsolete add_obsolete
  by_cases h : lower (e.id ++ "-" ++ e.version) = lower (inst.id ++ "-" ++ inst.version)
  · rw [h]
    simp only [beq_self_eq_true, Bool.true_or]
    exact dictGet_dictSet_self _ _ _ _
  · rw [beq_eq_false_iff_ne.mpr h, Bool.false_or]
    exact dictGet_dictSet_ne _ _ _ _ _ h

/-! Branch lemmas for `install_extension`, one per return path of the Python
function. -/

theorem install_extension_none (cfg : Config) (st : ExtensionsState) (ts : Nat) :
    install_extension cfg st none ts = (st, .invalidManifest) := rfl

theorem install_extension_server_skip {cfg : Config} (st : ExtensionsState)
    {mft : ExtManifest} (ts : Nat)
    (hs : (cfg.is_server && !mft.kinds.contains "workspace") = true) :
    install_extension cfg st (some mft) ts = (st, .serverSkip) := by
  simp only [install_extension]
  rw [if_pos hs]

theorem install_extension_platform_skip {cfg : Config} (st : ExtensionsState)
    {mft : ExtManifest} (ts : Nat)
    (hs : (cfg.is_server && !mft.kinds.contains "workspace") = false)
    (hp : (mft.platform.isNone || mft.platform == some cfg.current_platform) = false) :
    install_extension cfg st (some mft) ts = (st, .platformSkip) := by
  simp only [install_extension]
  rw [if_neg (by simp only [hs]; decide), if_neg (by simp only [hp]; decide)]

theorem install_extension_already {cfg : Config} {st : ExtensionsState}
    {mft : ExtManifest} (ts : Nat) {inst : ExtensionData}
    (hs : (cfg.is_server && !mft.kinds.contains "workspace") = false)
    (hp : (mft.platform.isNone || mft.platform == some cfg.current_platform) = true)
    (hfind : get_extension st (lower (mft.publisher ++ "." ++ mft.id)) mft.version =
      some inst)
    (hv : (inst.version == mft.version) = true) :
    install_extension cfg st (some mft) ts = (st, .alreadyInstalled) := by
  simp only [install_extension]
  rw [if_neg (by simp only [hs]; decide), if_pos hp]
  simp only [hfind]
  rw [if_pos hv]

theorem install_extension_commit_new {cfg : Config} {st : ExtensionsState}
    {mft : ExtManifest} (ts : Nat)
    (hs : (cfg.is_server && !mft.kinds.contains "workspace") = false)
    (hp : (mft.platform.isNone || mft.platform == some cfg.current_platform) = true)
    (hfind : get_extension st (lower (mft.publisher ++ "." ++ mft.id)) mft.version = none) :
    install_extension cfg st (some mft) ts =
      (add_extension st mft.publisher mft.id mft.version
        (lower (mft.publisher ++ "." ++ mft.id ++ "-" ++ mft.version)) ts,
       .installed (lower (mft.publisher ++ "." ++ mft.id ++ "-" ++ mft.version))) := by
  simp only [install_extension]
  rw [if_neg (by simp only [hs]; decide), if_pos hp]
  simp only [hfind]

theorem install_extension_supersede {cfg : Config} {st : ExtensionsState}
    {mft : ExtManifest} (ts : Nat) {inst : ExtensionData}
    (hs : (cfg.is_server && !mft.kinds.contains "workspace") = false)
    (hp : (mft.platform.isNone || mft.platform == some cfg.current_platform) = true)
    (hfind : get_extension st (lower (mft.publisher ++ "." ++ mft.id)) mft.version =
      some inst)
    (hv : (inst.version == mft.version) = false) :
    install_extension cfg st (some mft) ts =
      (add_obsolete
        (add_extension st mft.publisher mft.id mft.version
          (lower (mft.publisher ++ "." ++ mft.id ++ "-" ++ mft.version)) ts)
        inst,
       .installed (lower (mft.publisher ++ "." ++ mft.id ++ "-" ++ mft.version))) := by
  simp only [install_extension]
  rw [if_neg (by simp only [hs]; decide), if_pos hp]
  simp only [hfind]
  rw [if_neg (by simp only [hv]; decide)]

theorem is_extension_cached_loop_fst (dir name vers : String) (fs : List String)
    (platforms flog : List String) :
    (is_extension_cached_loop dir name vers fs platforms flog).1 =
      platforms.all (fun p => fs.contains (platform_vsix_path dir name vers p)) := by
  induction platforms generalizing flog with
  | nil => rfl
  | cons p ps ih =>
    simp only [is_extension_cached_loop, List.all_cons]
    by_cases hc : fs.contains (platform_vsix_path dir name vers p) = true
    · rw [if_pos hc, ih, hc, Bool.true_and]
    · have hc' : fs.contains (platform_vsix_path dir name vers p) = false := by
        simpa using hc
      rw [if_neg hc, hc', Bool.false_and]

/-! Theorems settling the claims. -/

/-- C10: calling the cache check with an empty requested-platform set returns
true for every filesystem content, even one holding no artifact file at all
(the per-platform loop is vacuously satisfied). -/
theorem is_extension_cached_empty_platforms (dir : String) (fs flog : List String)
    (name vers : String) :
    (is_extension_cached dir fs flog name vers []).1 = true := by
  simp only [is_extension_cached]
  by_cases hu : fs.contains (universal_vsix_path dir name vers) = true
  · rw [if_pos hu]
  · rw [if_neg hu]
    rfl

/-- C6: the cache check returns true iff the platform-independent artifact
file exists or a platform-suffixed artifact file exists for every platform of
the requested set; in particular a cache holding only the linux-x64 file is
not a hit for the requested platforms linux-x64 and win32-x64, but is a hit
for linux-x64 alone. -/
theorem is_extension_cached_iff_coverage :
    (∀ (dir : String) (fs flog : List String) (name vers : String)
        (platforms : List String),
      ((is_extension_cached dir fs flog name vers platforms).1 = true ↔
        (fs.contains (universal_vsix_path dir name vers) = true ∨
          ∀ p ∈ platforms,
            fs.contains (platform_vsix_path dir name vers p) = true))) ∧
    (is_extension_cached "cache" [platform_vsix_path "cache" "ext" "1.0" "linux-x64"] []
        "ext" "1.0" ["linux-x64", "win32-x64"]).1 = false ∧
    (is_extension_cached "cache" [platform_vsix_path "cache" "ext" "1.0" "linux-x64"] []
        "ext" "1.0" ["linux-x64"]).1 = true := by
  refine ⟨?_, by decide, by decide⟩
  intro dir fs flog name vers platforms
  simp only [is_extension_cached]
  by_cases hu : fs.contains (universal_vsix_path dir name vers) = true
  · rw [if_pos hu]
    simp only [true_iff]
    exact Or.inl hu
  · rw [if_neg hu]
    rw [is_extension_cached_loop_fst]
    constructor
    · intro hall
      exact Or.inr (List.all_eq_true.mp hall)
    · intro h
      rcases h with h | h
      · exact absurd h hu
      · exact List.all_eq_true.mpr h

/-- C9: a download failing with an HTTP transport error only logs the
failure: the set of files on disk and the touched-file log are exactly as
before the call. -/
theorem download_file_http_error (st : DownloadState) (url dest : String)
    (sha256hash : Option String) (status : Nat) (actual_hash : String) :
    (download_file st url dest sha256hash (.httpError status) actual_hash).files =
        st.files ∧
      (download_file st url dest sha256hash (.httpError status) actual_hash).file_log =
        st.file_log ∧
      (download_file st url dest sha256hash (.httpError status) actual_hash).logs =
        st.logs ++
          ["Download failed with status " ++ toString status ++ " for url: " ++ url] :=
  ⟨rfl, rfl, rfl⟩

/-- C5 counterexample: a batch whose first file is an archive that cannot be
opened aborts with the uncaught exception; the remaining valid package is not
processed, contradicting the claim that such a failure is skipped and the
batch continues. -/
theorem install_extensions_abort_counterexample :
    install_extensions { is_server := false, current_platform := "linux-x64" } emptyState
        [(VsixFile.badZip, 0),
         (VsixFile.withManifest
            (some { id := "name", version := "1.0", publisher := "pub", platform := none,
                    kinds := [] }), 1)] =
      Except.error PyExc.badZipFile := rfl

/-- C5 amended: only a manifest whose XML lacks the identity node is skipped
with a warning while the batch continues; an archive that cannot be opened or
that lacks the extension.vsixmanifest entry raises an uncaught exception that
aborts the whole run. -/
theorem install_extensions_error_policy (cfg : Config) (st : ExtensionsState)
    (rest : List (VsixFile × Nat)) (ts : Nat) :
    install_extensions cfg st ((VsixFile.withManifest none, ts) :: rest) =
        install_extensions cfg st rest ∧
      install_extensions cfg st ((VsixFile.badZip, ts) :: rest) =
        Except.error PyExc.badZipFile ∧
      install_extensions cfg st ((VsixFile.missingManifestEntry, ts) :: rest) =
        Except.error PyExc.keyError :=
  ⟨rfl, rfl, rfl⟩

/-- C8: a manifest whose target platform is set and differs from the current
runtime platform produces no state change at all — registry sequence,
obsolete log and both dirty flags are untouched — and no extraction is
performed. -/
theorem install_extension_platform_filter (cfg : Config) (st : ExtensionsState)
    (mft : ExtManifest) (ts : Nat) (p : String) (h1 : mft.platform = some p)
    (h2 : p ≠ cfg.current_platform) :
    (install_extension cfg st (some mft) ts).1.extensions = st.extensions ∧
      (install_extension cfg st (some mft) ts).1.obsolete = st.obsolete ∧
      (install_extension cfg st (some mft) ts).1.extensions_dirty = st.extensions_dirty ∧
      (install_extension cfg st (some mft) ts).1.obsolete_dirty = st.obsolete_dirty ∧
      wasExtracted (install_extension cfg st (some mft) ts).2 = false := by
  have hplat : (mft.platform == some cfg.current_platform) = false := by
    rw [h1]
    show (p == cfg.current_platform) = false
    exact beq_eq_false_iff_ne.mpr h2
  have hnone : mft.platform.isNone = false := by rw [h1]; rfl
  by_cases hs : (cfg.is_server && !mft.kinds.contains "workspace") = true
  · rw [install_extension_server_skip st ts hs]
    exact ⟨rfl, rfl, rfl, rfl, rfl⟩
  · have hs' : (cfg.is_server && !mft.kinds.contains "workspace") = false := by
      simpa using hs
    have hp : (mft.platform.isNone || mft.platform == some cfg.current_platform) = false := by
      rw [hnone, hplat]
      rfl
    rw [install_extension_platform_skip st ts hs' hp]
    exact ⟨rfl, rfl, rfl, rfl, rfl⟩

/-- C8 witness: installing a darwin-arm64 manifest while running as linux-x64
changes nothing and extracts nothing. -/
theorem install_extension_platform_filter_witness :
    (install_extension { is_server := false, current_platform := "linux-x64" } emptyState
        (some { id := "name", version := "1.0", publisher := "pub",
                platform := some "darwin-arm64", kinds := [] }) 0).1.extensions =
        emptyState.extensions ∧
      (install_extension { is_server := false, current_platform := "linux-x64" } emptyState
        (some { id := "name", version := "1.0", publisher := "pub",
                platform := some "darwin-arm64", kinds := [] }) 0).1.obsolete =
        emptyState.obsolete ∧
      (install_extension { is_server := false, current_platform := "linux-x64" } emptyState
        (some { id := "name", version := "1.0", publisher := "pub",
                platform := some "darwin-arm64", kinds := [] }) 0).1.extensions_dirty =
        emptyState.extensions_dirty ∧
      (install_extension { is_server := false, current_platform := "linux-x64" } emptyState
        (some { id := "name", version := "1.0", publisher := "pub",
                platform := some "darwin-arm64", kinds := [] }) 0).1.obsolete_dirty =
        emptyState.obsolete_dirty ∧
      wasExtracted
        (install_extension { is_server := false, current_platform := "linux-x64" } emptyState
          (some { id := "name", version := "1.0", publisher := "pub",
                  platform := some "darwin-arm64", kinds := [] }) 0).2 = false :=
  install_extension_platform_filter { is_server := false, current_platform := "linux-x64" }
    emptyState
    { id := "name", version := "1.0", publisher := "pub", platform := some "darwin-arm64",
      kinds := [] }
    0 "darwin-arm64" rfl (by decide)

/-- C7: the resolved variant list excludes a universal entry exactly when the
built variant map has more than one entry (the universal entry then being
present among them), keeps every platform-specific entry, and equals the
built map otherwise; in particular the three-variant input loses urlA and the
sole-universal input resolves to exactly urlA. -/
theorem get_download_extension_urls_tie_break :
    (∀ (versions : List RemoteExtensionVersion) (target p u : String),
      ((p, u) ∈ get_download_extension_urls (some { versions := versions }) target ↔
        ((p, u) ∈ build_sources versions target ∧
          ¬(p = "universal" ∧ 1 < (build_sources versions target).length)))) ∧
    get_download_extension_urls
        (some { versions :=
          [{ version := "1.0",
             files := [{ assetType := "Microsoft.VisualStudio.Services.VSIXPackage",
                         source := "urlA" }],
             targetPlatform := none },
           { version := "1.0",
             files := [{ assetType := "Microsoft.VisualStudio.Services.VSIXPackage",
                         source := "urlB" }],
             targetPlatform := some "linux-x64" },
           { version := "1.0",
             files := [{ assetType := "Microsoft.VisualStudio.Services.VSIXPackage",
                         source := "urlC" }],
             targetPlatform := some "win32-x64" }] }) "1.0" =
      [("linux-x64", "urlB"), ("win32-x64", "urlC")] ∧
    get_download_extension_urls
        (some { versions :=
          [{ version := "1.0",
             files := [{ assetType := "Microsoft.VisualStudio.Services.VSIXPackage",
                         source := "urlA" }],
             targetPlatform := none }] }) "1.0" =
      [("universal", "urlA")] := by
  refine ⟨?_, by decide, by decide⟩
  intro versions target p u
  simp only [get_download_extension_urls]
  by_cases hcond : ((build_sources versions target).length > 1 &&
      (build_sources versions target).any (fun q => q.1 == "universal")) = true
  · rw [if_pos hcond]
    rw [Bool.and_eq_true] at hcond
    have hlen : 1 < (build_sources versions target).length := of_decide_eq_true hcond.1
    simp only [dictPop, List.mem_filter]
    constructor
    · rintro ⟨hmem, hne⟩
      refine ⟨hmem, ?_⟩
      rintro ⟨hp, _⟩
      rw [bne_iff_ne] at hne
      exact hne hp
    · rintro ⟨hmem, hnot⟩
      have hpne : p ≠ "universal" := fun hp => hnot ⟨hp, hlen⟩
      exact ⟨hmem, bne_iff_ne.mpr hpne⟩
  · rw [if_neg hcond]
    constructor
    · intro hmem
      refine ⟨hmem, ?_⟩
      rintro ⟨hp, hlen⟩
      apply hcond
      rw [Bool.and_eq_true]
      refine ⟨decide_eq_true hlen, ?_⟩
      rw [List.any_eq_true]
      exact ⟨(p, u), hmem, by rw [hp]; exact beq_self_eq_true _⟩
    · rintro ⟨hmem, _⟩
      exact hmem

theorem find?_eq_some_decomp {α : Type} (p : α → Bool) (l : List α) (a : α) :
    l.find? p = some a ↔
      p a = true ∧ ∃ l₁ l₂, l = l₁ ++ a :: l₂ ∧ ∀ x ∈ l₁, p x = false := by
  induction l with
  | nil => simp
  | cons b l ih =>
    cases hb : p b with
    | true =>
      rw [List.find?_cons_of_pos l hb]
      constructor
      · intro h
        rw [Option.some.injEq] at h
        subst h
        exact ⟨hb, [], l, rfl, fun x hx => absurd hx (List.not_mem_nil x)⟩
      · rintro ⟨hpa, l₁, l₂, heq, hall⟩
        cases l₁ with
        | nil =>
          rw [List.nil_append, List.cons.injEq] at heq
          rw [heq.1]
        | cons c l₁ =>
          rw [List.cons_append, List.cons.injEq] at heq
          have hc := hall c (List.mem_cons_self c l₁)
          rw [heq.1] at hb
          rw [hc] at hb
          exact absurd hb (by decide)
    | false =>
      rw [List.find?_cons_of_neg l (by rw [hb]; decide), ih]
      constructor
      · rintro ⟨hpa, l₁, l₂, heq, hall⟩
        refine ⟨hpa, b :: l₁, l₂, by rw [heq, List.cons_append], fun x hx => ?_⟩
        rcases List.mem_cons.mp hx with h | h
        · rw [h]; exact hb
        · exact hall x h
      · rintro ⟨hpa, l₁, l₂, heq, hall⟩
        cases l₁ with
        | nil =>
          rw [List.nil_append, List.cons.injEq] at heq
          rw [heq.1] at hb
          rw [hb] at hpa
          exact absurd hpa (by decide)
        | cons c l₁ =>
          rw [List.cons_append, List.cons.injEq] at heq
          exact ⟨hpa, l₁, l₂, heq.2, fun x hx => hall x (List.mem_cons_of_mem c hx)⟩

theorem get_pred_eq_true_iff (st : ExtensionsState) (i v : String) (x : ExtensionData) :
    ((lower x.id == i && (!is_obsolete st x || x.version == v)) = true) ↔
      (lower x.id = i ∧ (is_obsolete st x = false ∨ x.version = v)) := by
  simp [Bool.and_eq_true, Bool.or_eq_true, Bool.not_eq_true', beq_iff_eq]

/-- C4 counterexample: a registry holding two non-obsolete entries for the
same identifier makes the source lookup return the first one encountered in
load order, while the spec's last-wins lookup returns the other one. -/
theorem get_extension_not_last_wins_counterexample :
    get_extension
        { extensions :=
            [{ id := "pub.ext", version := "1.0", relativeLocation := "pub.ext-1.0",
               installedTimestamp := 1 },
             { id := "pub.ext", version := "2.0", relativeLocation := "pub.ext-2.0",
               installedTimestamp := 2 }]
          obsolete := []
          extensions_dirty := false
          obsolete_dirty := false } "pub.ext" "3.0" =
      some { id := "pub.ext", version := "1.0", relativeLocation := "pub.ext-1.0",
             installedTimestamp := 1 } ∧
    get_extension_spec_last_wins
        { extensions :=
            [{ id := "pub.ext", version := "1.0", relativeLocation := "pub.ext-1.0",
               installedTimestamp := 1 },
             { id := "pub.ext", version := "2.0", relativeLocation := "pub.ext-2.0",
               installedTimestamp := 2 }]
          obsolete := []
          extensions_dirty := false
          obsolete_dirty := false } "pub.ext" "3.0" =
      some { id := "pub.ext", version := "2.0", relativeLocation := "pub.ext-2.0",
             installedTimestamp := 2 } ∧
    ({ id := "pub.ext", version := "1.0", relativeLocation := "pub.ext-1.0",
       installedTimestamp := 1 } : ExtensionData) ≠
      { id := "pub.ext", version := "2.0", relativeLocation := "pub.ext-2.0",
        installedTimestamp := 2 } := by
  refine ⟨by decide, by decide, by decide⟩

/-- C4 amended: the lookup returns the FIRST entry encountered in load order
whose lowered identifier matches and which is not skipped, an entry being
skipped exactly when it is marked obsolete and its version differs from the
version currently being installed. -/
theorem get_extension_first_encountered (st : ExtensionsState) (i v : String)
    (e : ExtensionData) :
    get_extension st i v = some e ↔
      ((lower e.id = i ∧ (is_obsolete st e = false ∨ e.version = v)) ∧
        ∃ l₁ l₂, st.extensions = l₁ ++ e :: l₂ ∧
          ∀ x ∈ l₁, ¬(lower x.id = i ∧ (is_obsolete st x = false ∨ x.version = v))) := by
  unfold get_extension
  rw [find?_eq_some_decomp]
  constructor
  · rintro ⟨hpa, l₁, l₂, heq, hall⟩
    refine ⟨(get_pred_eq_true_iff st i v e).mp hpa, l₁, l₂, heq, fun x hx hP => ?_⟩
    have hfalse := hall x hx
    rw [Bool.eq_false_iff] at hfalse
    exact hfalse ((get_pred_eq_true_iff st i v x).mpr hP)
  · rintro ⟨hP, l₁, l₂, heq, hall⟩
    refine ⟨(get_pred_eq_true_iff st i v e).mpr hP, l₁, l₂, heq, fun x hx => ?_⟩
    rw [Bool.eq_false_iff]
    intro htrue
    exact hall x hx ((get_pred_eq_true_iff st i v x).mp htrue)


/-! Machinery for the supersession invariant and idempotence. -/

theorem filter_singleton_length_le {α : Type} (p : α → Bool) (x : α) :
    (List.filter p [x]).length ≤ 1 := by
  cases h : p x with
  | true => simp [List.filter_cons, h]
  | false => simp [List.filter_cons, h]

theorem isActiveFor_ne_class (st : ExtensionsState) (I : String) (e : ExtensionData)
    (h : (lower e.id == I) = false) : isActiveFor st I e = false := by
  unfold isActiveFor
  rw [h, Bool.false_and]

theorem get_some_mem {st : ExtensionsState} {k v : String} {inst : ExtensionData}
    (hfind : get_extension st k v = some inst) : inst ∈ st.extensions := by
  unfold get_extension at hfind
  exact List.mem_of_find?_eq_some hfind

/-- An entry found by the lookup whose version differs from the requested one
is necessarily non-obsolete, hence active for its identifier class. -/
theorem get_some_active {st : ExtensionsState} {k v : String} {inst : ExtensionData}
    (hfind : get_extension st k v = some inst)
    (hv : (inst.version == v) = false) : isActiveFor st k inst = true := by
  unfold get_extension at hfind
  have hp := List.find?_some hfind
  rw [Bool.and_eq_true] at hp
  obtain ⟨hid, hor⟩ := hp
  rw [Bool.or_eq_true] at hor
  unfold isActiveFor
  rw [hid, Bool.true_and]
  rcases hor with h | h
  · exact h
  · rw [h] at hv
    exact absurd hv (by decide)

/-- Under the supersession invariant an active entry for a class is the only
active entry for that class. -/
theorem active_unique {st : ExtensionsState} {k : String} {inst : ExtensionData}
    (hinv : supersessionInv st) (hmem : inst ∈ st.extensions)
    (hact : isActiveFor st k inst = true) :
    ∀ e ∈ st.extensions, isActiveFor st k e = true → e = inst := by
  intro e he hae
  exact eq_of_mem_of_length_le_one (hinv k)
    (List.mem_filter.mpr ⟨he, hae⟩) (List.mem_filter.mpr ⟨hmem, hact⟩)

/-- Appending a fresh entry for a class with no matching entry preserves the
supersession invariant. -/
theorem supersessionInv_add_extension_none {st : ExtensionsState}
    {pub name v loc : String} {ts : Nat} (hinv : supersessionInv st)
    (hfind : get_extension st (lower (pub ++ "." ++ name)) v = none) :
    supersessionInv (add_extension st pub name v loc ts) := by
  intro I
  show (List.filter (isActiveFor st I)
      (st.extensions ++
        [{ id := lower (pub ++ "." ++ name), version := v, relativeLocation := loc,
           installedTimestamp := ts }])).length ≤ 1
  rw [List.filter_append]
  by_cases hI : I = lower (pub ++ "." ++ name)
  · subst hI
    have hnil : st.extensions.filter (isActiveFor st (lower (pub ++ "." ++ name))) = [] := by
      rw [List.filter_eq_nil_iff]
      intro e he hae
      unfold get_extension at hfind
      rw [List.find?_eq_none] at hfind
      apply hfind e he
      unfold isActiveFor at hae
      rw [Bool.and_eq_true] at hae
      rw [Bool.and_eq_true]
      refine ⟨hae.1, ?_⟩
      rw [Bool.or_eq_true]
      exact Or.inl hae.2
    rw [hnil, List.nil_append]
    exact filter_singleton_length_le _ _
  · have hnewE : isActiveFor st I
        { id := lower (pub ++ "." ++ name), version := v, relativeLocation := loc,
          installedTimestamp := ts } = false := by
      apply isActiveFor_ne_class
      show (lower (lower (pub ++ "." ++ name)) == I) = false
      rw [lower_lower]
      exact beq_eq_false_iff_ne.mpr (fun h => hI h.symm)
    rw [List.filter_cons, if_neg (by rw [hnewE]; decide), List.filter_nil,
      List.append_nil]
    exact hinv I

/-- Superseding the unique active entry of a class preserves the supersession
invariant. -/
theorem supersessionInv_supersede {st : ExtensionsState} {pub name v loc : String}
    {ts : Nat} {inst : ExtensionData} (hinv : supersessionInv st)
    (hfind : get_extension st (lower (pub ++ "." ++ name)) v = some inst)
    (hv : (inst.version == v) = false) :
    supersessionInv (add_obsolete (add_extension st pub name v loc ts) inst) := by
  have hinst_act : isActiveFor st (lower (pub ++ "." ++ name)) inst = true :=
    get_some_active hfind hv
  have hinst_mem : inst ∈ st.extensions := get_some_mem hfind
  have hobs : ∀ e, is_obsolete (add_obsolete (add_extension st pub name v loc ts) inst) e =
      ((lower (e.id ++ "-" ++ e.version) == lower (inst.id ++ "-" ++ inst.version)) ||
        is_obsolete st e) :=
    fun e => is_obsolete_add_obsolete (add_extension st pub name v loc ts) inst e
  intro I
  have hmono : ∀ e,
      isActiveFor (add_obsolete (add_extension st pub name v loc ts) inst) I e = true →
        isActiveFor st I e = true := by
    intro e he
    unfold isActiveFor at he ⊢
    rw [Bool.and_eq_true] at he
    obtain ⟨h1, h2⟩ := he
    rw [Bool.not_eq_true', hobs e, Bool.or_eq_false_iff] at h2
    rw [Bool.and_eq_true]
    refine ⟨h1, ?_⟩
    rw [Bool.not_eq_true']
    exact h2.2
  show (List.filter (isActiveFor (add_obsolete (add_extension st pub name v loc ts) inst) I)
      (st.extensions ++
        [{ id := lower (pub ++ "." ++ name), version := v, relativeLocation := loc,
           installedTimestamp := ts }])).length ≤ 1
  rw [List.filter_append]
  by_cases hI : I = lower (pub ++ "." ++ name)
  · subst hI
    have hnil : st.extensions.filter
        (isActiveFor (add_obsolete (add_extension st pub name v loc ts) inst)
          (lower (pub ++ "." ++ name))) = [] := by
      rw [List.filter_eq_nil_iff]
      intro e he hae
      have hae0 : isActiveFor st (lower (pub ++ "." ++ name)) e = true := hmono e hae
      have he_eq : e = inst := active_unique hinv hinst_mem hinst_act e he hae0
      unfold isActiveFor at hae
      rw [Bool.and_eq_true] at hae
      have h2 := hae.2
      rw [Bool.not_eq_true', hobs e, Bool.or_eq_false_iff] at h2
      have hkey := h2.1
      rw [he_eq, beq_self_eq_true] at hkey
      exact absurd hkey (by decide)
    rw [hnil, List.nil_append]
    exact filter_singleton_length_le _ _
  · have hnewE : isActiveFor (add_obsolete (add_extension st pub name v loc ts) inst) I
        { id := lower (pub ++ "." ++ name), version := v, relativeLocation := loc,
          installedTimestamp := ts } = false := by
      apply isActiveFor_ne_class
      show (lower (lower (pub ++ "." ++ name)) == I) = false
      rw [lower_lower]
      exact beq_eq_false_iff_ne.mpr (fun h => hI h.symm)
    rw [List.filter_cons, if_neg (by rw [hnewE]; decide), List.filter_nil,
      List.append_nil]
    exact le_trans (List.monotone_filter_right st.extensions hmono).length_le (hinv I)


/-- One `install_extension` call preserves the supersession invariant. -/
theorem supersessionInv_install (cfg : Config) (st : ExtensionsState)
    (mft? : Option ExtManifest) (ts : Nat) (h : supersessionInv st) :
    supersessionInv (install_extension cfg st mft? ts).1 := by
  cases mft? with
  | none => exact h
  | some mft =>
    by_cases hs : (cfg.is_server && !mft.kinds.contains "workspace") = true
    · rw [install_extension_server_skip st ts hs]
      exact h
    · have hs' : (cfg.is_server && !mft.kinds.contains "workspace") = false := by
        simpa using hs
      by_cases hp : (mft.platform.isNone || mft.platform == some cfg.current_platform) = true
      · cases hfind : get_extension st (lower (mft.publisher ++ "." ++ mft.id))
            mft.version with
        | none =>
          rw [install_extension_commit_new ts hs' hp hfind]
          exact supersessionInv_add_extension_none h hfind
        | some inst =>
          cases hv : inst.version == mft.version with
          | true =>
            rw [install_extension_already ts hs' hp hfind hv]
            exact h
          | false =>
            rw [install_extension_supersede ts hs' hp hfind hv]
            exact supersessionInv_supersede h hfind hv
      · have hp' : (mft.platform.isNone ||
            mft.platform == some cfg.current_platform) = false :=
          Bool.eq_false_iff.mpr hp
        rw [install_extension_platform_skip st ts hs' hp']
        exact h

theorem supersessionInv_emptyState : supersessionInv emptyState := by
  intro I
  show (List.filter (isActiveFor emptyState I) []).length ≤ 1
  simp

theorem supersessionInv_install_many (cfg : Config) (st : ExtensionsState)
    (inputs : List (Option ExtManifest × Nat)) (h : supersessionInv st) :
    supersessionInv (install_many cfg st inputs) := by
  induction inputs generalizing st with
  | nil => exact h
  | cons i rest ih => exact ih _ (supersessionInv_install cfg st i.1 i.2 h)

/-- C2: after any sequence of installs from the empty registry state, at most
one registry entry for each identifier is simultaneously present in the
registry sequence and not mapped to true in the obsolete log. -/
theorem supersession_invariant_from_empty (cfg : Config)
    (inputs : List (Option ExtManifest × Nat)) (I : String) :
    (activeEntries (install_many cfg emptyState inputs) I).length ≤ 1 :=
  supersessionInv_install_many cfg emptyState inputs supersessionInv_emptyState I

/-- After committing a fresh entry, looking the same identifier and version up
again finds exactly that entry. -/
theorem get_extension_after_install_none {st : ExtensionsState} {pub name v : String}
    (loc : String) (ts : Nat)
    (hfind : get_extension st (lower (pub ++ "." ++ name)) v = none) :
    get_extension (add_extension st pub name v loc ts) (lower (pub ++ "." ++ name)) v =
      some { id := lower (pub ++ "." ++ name), version := v, relativeLocation := loc,
             installedTimestamp := ts } := by
  show (st.extensions ++ [({ id := lower (pub ++ "." ++ name), version := v, relativeLocation := loc, installedTimestamp := ts } : ExtensionData)]).find?
      (fun ext => lower ext.id == lower (pub ++ "." ++ name) &&
        (!is_obsolete st ext || ext.version == v)) =
    some ({ id := lower (pub ++ "." ++ name), version := v, relativeLocation := loc, installedTimestamp := ts } : ExtensionData)
  rw [List.find?_append]
  have h0 : st.extensions.find?
      (fun ext => lower ext.id == lower (pub ++ "." ++ name) &&
        (!is_obsolete st ext || ext.version == v)) = none := hfind
  rw [h0]
  have hpred : (lower (lower (pub ++ "." ++ name)) == lower (pub ++ "." ++ name) &&
      (!is_obsolete st ({ id := lower (pub ++ "." ++ name), version := v, relativeLocation := loc, installedTimestamp := ts } : ExtensionData) || v == v)) = true := by
    rw [lower_lower]
    simp
  rw [Option.none_or]
  exact List.find?_cons_of_pos _ hpred

/-- After a supersession commit, looking the same identifier and version up
again finds some entry carrying exactly the committed version. -/
theorem get_extension_after_install_some {st : ExtensionsState} {pub name v : String}
    (loc : String) (ts : Nat) {inst : ExtensionData} (hinv : supersessionInv st)
    (hfind : get_extension st (lower (pub ++ "." ++ name)) v = some inst)
    (hv : (inst.version == v) = false) :
    ∃ e, get_extension (add_obsolete (add_extension st pub name v loc ts) inst)
        (lower (pub ++ "." ++ name)) v = some e ∧ (e.version == v) = true := by
  have hinst_act : isActiveFor st (lower (pub ++ "." ++ name)) inst = true :=
    get_some_active hfind hv
  have hinst_mem : inst ∈ st.extensions := get_some_mem hfind
  have hobs : ∀ e, is_obsolete (add_obsolete (add_extension st pub name v loc ts) inst) e =
      ((lower (e.id ++ "-" ++ e.version) == lower (inst.id ++ "-" ++ inst.version)) ||
        is_obsolete st e) :=
    fun e => is_obsolete_add_obsolete (add_extension st pub name v loc ts) inst e
  show ∃ e, (st.extensions ++ [({ id := lower (pub ++ "." ++ name), version := v, relativeLocation := loc, installedTimestamp := ts } : ExtensionData)]).find?
      (fun ext => lower ext.id == lower (pub ++ "." ++ name) &&
        (!is_obsolete (add_obsolete (add_extension st pub name v loc ts) inst) ext ||
          ext.version == v)) = some e ∧ (e.version == v) = true
  rw [List.find?_append]
  cases hfa : st.extensions.find?
      (fun ext => lower ext.id == lower (pub ++ "." ++ name) &&
        (!is_obsolete (add_obsolete (add_extension st pub name v loc ts) inst) ext ||
          ext.version == v)) with
  | some e =>
    refine ⟨e, rfl, ?_⟩
    have hmem := List.mem_of_find?_eq_some hfa
    have hp := List.find?_some hfa
    rw [Bool.and_eq_true] at hp
    obtain ⟨hid, hor⟩ := hp
    rw [Bool.or_eq_true] at hor
    rcases hor with hnotobs | hver
    · exfalso
      rw [Bool.not_eq_true', hobs e, Bool.or_eq_false_iff] at hnotobs
      have hact : isActiveFor st (lower (pub ++ "." ++ name)) e = true := by
        unfold isActiveFor
        rw [hid, Bool.true_and, Bool.not_eq_true']
        exact hnotobs.2
      have he_eq : e = inst := active_unique hinv hinst_mem hinst_act e hmem hact
      have hkey := hnotobs.1
      rw [he_eq, beq_self_eq_true] at hkey
      exact absurd hkey (by decide)
    · exact hver
  | none =>
    have hpred : (lower (lower (pub ++ "." ++ name)) == lower (pub ++ "." ++ name) &&
        (!is_obsolete (add_obsolete (add_extension st pub name v loc ts) inst)
            ({ id := lower (pub ++ "." ++ name), version := v, relativeLocation := loc, installedTimestamp := ts } : ExtensionData) || v == v)) = true := by
      rw [lower_lower]
      simp
    refine ⟨({ id := lower (pub ++ "." ++ name), version := v, relativeLocation := loc, installedTimestamp := ts } : ExtensionData), ?_, ?_⟩
    · rw [Option.none_or]
      exact List.find?_cons_of_pos _ hpred
    · exact beq_self_eq_true v

/-- A second `install_extension` call with the identical manifest is a no-op
on any state satisfying the supersession invariant. -/
theorem install_extension_idem {cfg : Config} {st : ExtensionsState}
    (mft? : Option ExtManifest) (ts1 ts2 : Nat) (hinv : supersessionInv st) :
    (install_extension cfg (install_extension cfg st mft? ts1).1 mft? ts2).1 =
      (install_extension cfg st mft? ts1).1 := by
  cases mft? with
  | none => rfl
  | some mft =>
    by_cases hs : (cfg.is_server && !mft.kinds.contains "workspace") = true
    · have h1 : (install_extension cfg st (some mft) ts1).1 = st := by
        rw [install_extension_server_skip st ts1 hs]
      rw [h1, install_extension_server_skip st ts2 hs]
    · have hs' : (cfg.is_server && !mft.kinds.contains "workspace") = false := by
        simpa using hs
      by_cases hp : (mft.platform.isNone || mft.platform == some cfg.current_platform) = true
      · cases hfind : get_extension st (lower (mft.publisher ++ "." ++ mft.id))
            mft.version with
        | some inst =>
          cases hv : inst.version == mft.version with
          | true =>
            have h1 : (install_extension cfg st (some mft) ts1).1 = st := by
              rw [install_extension_already ts1 hs' hp hfind hv]
            rw [h1, install_extension_already ts2 hs' hp hfind hv]
          | false =>
            have h1 : (install_extension cfg st (some mft) ts1).1 =
                add_obsolete
                  (add_extension st mft.publisher mft.id mft.version
                    (lower (mft.publisher ++ "." ++ mft.id ++ "-" ++ mft.version)) ts1)
                  inst := by
              rw [install_extension_supersede ts1 hs' hp hfind hv]
            obtain ⟨e, hfind2, hv2⟩ := get_extension_after_install_some
              (lower (mft.publisher ++ "." ++ mft.id ++ "-" ++ mft.version)) ts1
              hinv hfind hv
            rw [h1, install_extension_already ts2 hs' hp hfind2 hv2]
        | none =>
          have h1 : (install_extension cfg st (some mft) ts1).1 =
              add_extension st mft.publisher mft.id mft.version
                (lower (mft.publisher ++ "." ++ mft.id ++ "-" ++ mft.version)) ts1 := by
            rw [install_extension_commit_new ts1 hs' hp hfind]
          have hfind2 := get_extension_after_install_none
            (lower (mft.publisher ++ "." ++ mft.id ++ "-" ++ mft.version)) ts1 hfind
          rw [h1, install_extension_already ts2 hs' hp hfind2 (beq_self_eq_true _)]
      · have hp' : (mft.platform.isNone ||
            mft.platform == some cfg.current_platform) = false :=
          Bool.eq_false_iff.mpr hp
        have h1 : (install_extension cfg st (some mft) ts1).1 = st := by
          rw [install_extension_platform_skip st ts1 hs' hp']
        rw [h1, install_extension_platform_skip st ts2 hs' hp']

/-- C3: running the install a second time with the identical package leaves
the whole registry state (sequence, obsolete log and dirty flags) exactly as
the first run left it, for every state reachable from the empty registry by a
sequence of installs. -/
theorem install_twice_idempotent (cfg : Config)
    (inputs : List (Option ExtManifest × Nat)) (mft? : Option ExtManifest)
    (ts1 ts2 : Nat) :
    (install_extension cfg
        (install_extension cfg (install_many cfg emptyState inputs) mft? ts1).1
        mft? ts2).1 =
      (install_extension cfg (install_many cfg emptyState inputs) mft? ts1).1 :=
  install_extension_idem mft? ts1 ts2
    (supersessionInv_install_many cfg emptyState inputs supersessionInv_emptyState)

/-- C1 counterexample: after installing pub.name 1.0 and then 2.0 from the
empty state, reinstalling 1.0 DOES take the idempotent already-installed
branch, contradicting the claim. -/
theorem reinstall_obsolete_counterexample :
    (install_extension { is_server := false, current_platform := "linux-x64" }
        (install_extension { is_server := false, current_platform := "linux-x64" }
            (install_extension { is_server := false, current_platform := "linux-x64" }
                emptyState
                (some { id := "name", version := "1.0", publisher := "pub",
                        platform := none, kinds := [] }) 0).1
            (some { id := "name", version := "2.0", publisher := "pub",
                    platform := none, kinds := [] }) 1).1
        (some { id := "name", version := "1.0", publisher := "pub", platform := none,
                kinds := [] }) 2).2 = InstallResult.alreadyInstalled := by
  decide

/-- C1 amended: after installing pub.name 1.0 and then 2.0 from the empty
state, a subsequent install of 1.0 IS treated as already installed — the
lookup finds the obsolete 1.0 entry through its version-equality exception,
the install takes the idempotent-skip branch, and the state is unchanged. -/
theorem reinstall_obsolete_is_already_installed :
    install_extension { is_server := false, current_platform := "linux-x64" }
        (install_extension { is_server := false, current_platform := "linux-x64" }
            (install_extension { is_server := false, current_platform := "linux-x64" }
                emptyState
                (some { id := "name", version := "1.0", publisher := "pub",
                        platform := none, kinds := [] }) 0).1
            (some { id := "name", version := "2.0", publisher := "pub",
                    platform := none, kinds := [] }) 1).1
        (some { id := "name", version := "1.0", publisher := "pub", platform := none,
                kinds := [] }) 2 =
      ((install_extension { is_server := false, current_platform := "linux-x64" }
          (install_extension { is_server := false, current_platform := "linux-x64" }
              emptyState
              (some { id := "name", version := "1.0", publisher := "pub",
                      platform := none, kinds := [] }) 0).1
          (some { id := "name", version := "2.0", publisher := "pub", platform := none,
                  kinds := [] }) 1).1,
       InstallResult.alreadyInstalled) := by
  decide

end Dlvsix
